import Mathlib

/-!
Verification of the adapter-configuration core of `dns_switcher.py`.

The source drives two external command-line mechanisms (PowerShell and netsh)
through `subprocess.run`.  We embed the core shallowly: the external world is a
`Runner`, a function from the command being issued to what `subprocess.run`
does with it — either a completed process (exit code, stdout, stderr) or an
exception at launch time (e.g. `FileNotFoundError` when the executable is
missing; `subprocess.run` with `capture_output` raises only then, never on a
non-zero exit).  Each embedded operation returns the value the Python function
returns — or the propagated exception, as `Except.error` — together with the
ordered list of commands it issued (the trace), which is a real side effect
even when an exception escapes.

Log lines appended to `logs` in the source are modelled one constructor per
`logs.append` site (`LogEntry`), keeping the adapter name and the diagnostic
text; the surrounding literal text of the message is dropped.
-/

/-- A completed external process: `subprocess.CompletedProcess` as used by
`run` (dns_switcher.py line 73). -/
structure CmdResult where
  exitCode : Int
  stdout : String
  stderr : String
deriving DecidableEq

/-- What `subprocess.run` does for one command: completes with a `CmdResult`,
or raises at launch (missing executable). -/
inductive ExecOutcome where
  | ok (r : CmdResult)
  | raise (msg : String)
deriving DecidableEq

/-- The distinct external commands the core issues. -/
inductive Cmd where
  | psListAdapters
  | netshShowInterfaces
  | psSetDns (adapter : String) (servers : List String)
  | psResetDns (adapter : String)
  | netshSetDhcp (adapter : String)
  | netshSetPrimary (adapter : String) (ip : String)
  | netshAddServer (adapter : String) (ip : String) (idx : Nat)
deriving DecidableEq

/-- The external command mechanism, abstracted: one behaviour per command. -/
def Runner := Cmd → ExecOutcome

/-- One constructor per `logs.append` site in `set_dns_servers` / `reset_dns`. -/
inductive LogEntry where
  | psApplyFail (adapter : String) (err : String)
  | psApplyOk (adapter : String) (servers : List String)
  | psException (msg : String)
  | netshBanner
  | netshDhcpFail (adapter : String) (err : String)
  | netshPrimaryFail (adapter : String) (err : String)
  | netshAddFail (adapter : String) (idx : Nat) (err : String)
  | netshApplied (adapter : String) (servers : List String)
  | psResetFail (adapter : String) (err : String)
  | psResetOk (adapter : String)
  | netshResetBanner
  | netshResetDhcpFail (adapter : String) (err : String)
  | netshResetDhcpOk (adapter : String)
deriving DecidableEq

/-- The characters Python's `str.strip()` removes (ASCII whitespace). -/
def isPySpace (c : Char) : Bool :=
  c = ' ' || c = '\t' || c = '\n' || c = '\r' || c = '\x0b' || c = '\x0c'

/-- Python `str.strip()`: drop leading and trailing whitespace. -/
def pyStrip (s : String) : String :=
  String.mk (((s.data.dropWhile isPySpace).reverse.dropWhile isPySpace).reverse)

/-- Split a character list at every separator character; a separator always
ends the current (possibly empty) piece, as Python `str.split(sep)` does. -/
def splitCharAux (sep : Char → Bool) : List Char → List Char → List (List Char)
  | [], acc => [acc.reverse]
  | c :: rest, acc =>
    if sep c then acc.reverse :: splitCharAux sep rest []
    else splitCharAux sep rest (c :: acc)

/-- Python `str.split(sep)` for a one-character class of separators. -/
def pySplitChar (sep : Char → Bool) (s : String) : List String :=
  (splitCharAux sep s.data []).map String.mk

/-- ASCII lower-casing of one character. -/
def asciiLower (c : Char) : Char :=
  if 'A' ≤ c ∧ c ≤ 'Z' then Char.ofNat (c.toNat + 32) else c

/-- Python `str.lower()` on the ASCII tokens the parser compares. -/
def pyLower (s : String) : String := String.mk (s.data.map asciiLower)

/-- `startsWithAux pre s`: is `pre` an initial segment of `s`? -/
def startsWithAux : List Char → List Char → Bool
  | [], _ => true
  | _ :: _, [] => false
  | p :: ps, c :: cs => p = c && startsWithAux ps cs

/-- Python `str.startswith(pre)`. -/
def pyStartswith (s pre : String) : Bool := startsWithAux pre.data s.data

/-- `str.splitlines()`: split at `\r\n`, `\r` or `\n`, no trailing empty line. -/
def splitlinesAux : List Char → List Char → List String
  | [], [] => []
  | [], acc => [String.mk acc.reverse]
  | '\r' :: '\n' :: rest, acc => String.mk acc.reverse :: splitlinesAux rest []
  | '\r' :: rest, acc => String.mk acc.reverse :: splitlinesAux rest []
  | '\n' :: rest, acc => String.mk acc.reverse :: splitlinesAux rest []
  | c :: rest, acc => splitlinesAux rest (c :: acc)

/-- Python `str.splitlines()` on the newline kinds netsh/PowerShell emit. -/
def pySplitlines (s : String) : List String := splitlinesAux s.data []

/-- The primary-branch name list of `get_active_adapters` (lines 89-91):
`[line.strip() for line in p.stdout.splitlines() if line.strip()]`. -/
def primNames (s : String) : List String :=
  ((pySplitlines s).map pyStrip).filter (fun x => x ≠ "")

/-- One iteration of the netsh table loop of `get_active_adapters`
(lines 96-105): skip blank lines and lines starting with `Admin State` or
`---`; `parts = [x for x in line.split(" ") if x]`; if at least 4 parts, the
state is `parts[-3]` and the name `" ".join(parts[3:])`; keep the name iff the
state lowercases to `connected`. -/
def parseNetshLine (names : List String) (line : String) : List String :=
  if pyStrip line ≠ "" ∧ pyStartswith line "Admin State" = false ∧
      pyStartswith line "---" = false then
    let parts := (pySplitChar (fun c => c = ' ') line).filter (fun x => x ≠ "")
    if parts.length ≥ 4 then
      let state := parts.getD (parts.length - 3) ""
      let name := String.intercalate " " (parts.drop 3)
      if pyLower state = "connected" then names ++ [name] else names
    else names
  else names

/-- `get_active_adapters` (lines 81-106).  The PowerShell query and the netsh
query have no surrounding `try`, so a launch failure propagates
(`Except.error`). -/
def get_active_adapters (runner : Runner) : Except String (List String) :=
  match runner Cmd.psListAdapters with
  | ExecOutcome.raise msg => Except.error msg
  | ExecOutcome.ok p =>
    if p.exitCode = 0 ∧ primNames p.stdout ≠ [] then
      Except.ok (primNames p.stdout)
    else
      match runner Cmd.netshShowInterfaces with
      | ExecOutcome.raise msg => Except.error msg
      | ExecOutcome.ok q =>
        if q.exitCode = 0 then
          Except.ok ((pySplitlines q.stdout).foldl parseNetshLine [])
        else Except.ok []

/-- The PowerShell loop of `set_dns_servers` (lines 120-140), with the issued
commands as trace.  The `try` wraps the whole `for`, so an exception is caught
once, sets `all_ok = False`, logs, and ends the loop: adapters after it are
not attempted. -/
def primaryPass (runner : Runner) (v4 v6 : List String) :
    List String → Bool → List LogEntry → (Bool × List LogEntry) × List Cmd
  | [], allOk, logs => ((allOk, logs), [])
  | adapter :: rest, allOk, logs =>
    if v4.isEmpty && v6.isEmpty then
      primaryPass runner v4 v6 rest allOk logs
    else
      match runner (Cmd.psSetDns adapter (v4 ++ v6)) with
      | ExecOutcome.raise msg =>
        ((false, logs ++ [LogEntry.psException msg]), [Cmd.psSetDns adapter (v4 ++ v6)])
      | ExecOutcome.ok p =>
        let res :=
          if p.exitCode ≠ 0 then
            primaryPass runner v4 v6 rest false (logs ++ [LogEntry.psApplyFail adapter p.stderr])
          else
            primaryPass runner v4 v6 rest allOk (logs ++ [LogEntry.psApplyOk adapter (v4 ++ v6)])
        (res.1, Cmd.psSetDns adapter (v4 ++ v6) :: res.2)

/-- The `enumerate(servers_v4[1:], start=2)` loop (lines 156-159): add each
remaining IPv4 server at an explicit index; a non-zero exit is logged and the
loop continues; a launch failure propagates (no `try` here). -/
def addLoop (runner : Runner) (adapter : String) :
    List String → Nat → (Except String (List LogEntry)) × List Cmd
  | [], _ => (Except.ok [], [])
  | ip :: rest, idx =>
    match runner (Cmd.netshAddServer adapter ip idx) with
    | ExecOutcome.raise msg => (Except.error msg, [Cmd.netshAddServer adapter ip idx])
    | ExecOutcome.ok p =>
      let res := addLoop runner adapter rest (idx + 1)
      let here := if p.exitCode ≠ 0 then [LogEntry.netshAddFail adapter idx p.stderr] else []
      (res.1.map (fun ls => here ++ ls), Cmd.netshAddServer adapter ip idx :: res.2)

/-- One adapter of the netsh fallback (lines 145-160): set source to DHCP
(failure logged, not fatal), set the first IPv4 server as static primary
(failure logged, `continue` skips the rest for this adapter), then `addLoop`
from index 2, then the per-adapter success line. -/
def fallbackAdapter (runner : Runner) (first : String) (rest : List String)
    (adapter : String) : (Except String (List LogEntry)) × List Cmd :=
  match runner (Cmd.netshSetDhcp adapter) with
  | ExecOutcome.raise msg => (Except.error msg, [Cmd.netshSetDhcp adapter])
  | ExecOutcome.ok p1 =>
    let l1 := if p1.exitCode ≠ 0 then [LogEntry.netshDhcpFail adapter p1.stderr] else []
    match runner (Cmd.netshSetPrimary adapter first) with
    | ExecOutcome.raise msg =>
      (Except.error msg, [Cmd.netshSetDhcp adapter, Cmd.netshSetPrimary adapter first])
    | ExecOutcome.ok p2 =>
      if p2.exitCode ≠ 0 then
        (Except.ok (l1 ++ [LogEntry.netshPrimaryFail adapter p2.stderr]),
         [Cmd.netshSetDhcp adapter, Cmd.netshSetPrimary adapter first])
      else
        let res := addLoop runner adapter rest 2
        (res.1.map (fun ls => l1 ++ ls ++ [LogEntry.netshApplied adapter (first :: rest)]),
         Cmd.netshSetDhcp adapter :: Cmd.netshSetPrimary adapter first :: res.2)

/-- The netsh fallback `for adapter in adapters` loop of `set_dns_servers`
(lines 145-160); a launch failure anywhere propagates. -/
def fallbackPass (runner : Runner) (first : String) (rest : List String) :
    List String → (Except String (List LogEntry)) × List Cmd
  | [] => (Except.ok [], [])
  | adapter :: more =>
    let r1 := fallbackAdapter runner first rest adapter
    match r1.1 with
    | Except.error msg => (Except.error msg, r1.2)
    | Except.ok l =>
      let r2 := fallbackPass runner first rest more
      (r2.1.map (fun ls => l ++ ls), r1.2 ++ r2.2)

/-- `set_dns_servers` (lines 109-162).  `None` server lists become `[]`; the
PowerShell pass runs with `all_ok` starting `True`; the netsh fallback runs
iff `not all_ok and servers_v4`; `all_ok` is never set back to `True`. -/
def set_dns_servers (runner : Runner) (adapters : List String)
    (servers_v4 servers_v6 : Option (List String)) :
    (Except String (Bool × List LogEntry)) × List Cmd :=
  let v4 := servers_v4.getD []
  let v6 := servers_v6.getD []
  let pr := primaryPass runner v4 v6 adapters true []
  if pr.1.1 then (Except.ok pr.1, pr.2)
  else
    match v4 with
    | [] => (Except.ok pr.1, pr.2)
    | first :: rest =>
      let fb := fallbackPass runner first rest adapters
      match fb.1 with
      | Except.error msg => (Except.error msg, pr.2 ++ fb.2)
      | Except.ok flog =>
        (Except.ok (pr.1.1, pr.1.2 ++ [LogEntry.netshBanner] ++ flog), pr.2 ++ fb.2)

/-- The PowerShell reset loop of `reset_dns` (lines 171-181).  There is no
`try` in `reset_dns`, so a launch failure propagates out of the whole
function. -/
def resetPrimaryPass (runner : Runner) :
    List String → Bool → List LogEntry → (Except String (Bool × List LogEntry)) × List Cmd
  | [], allOk, logs => (Except.ok (allOk, logs), [])
  | adapter :: rest, allOk, logs =>
    match runner (Cmd.psResetDns adapter) with
    | ExecOutcome.raise msg => (Except.error msg, [Cmd.psResetDns adapter])
    | ExecOutcome.ok p =>
      let res :=
        if p.exitCode ≠ 0 then
          resetPrimaryPass runner rest false (logs ++ [LogEntry.psResetFail adapter p.stderr])
        else
          resetPrimaryPass runner rest allOk (logs ++ [LogEntry.psResetOk adapter])
      (res.1, Cmd.psResetDns adapter :: res.2)

/-- The netsh reset fallback loop (lines 185-192): set IPv4 source to DHCP per
adapter, logging success or failure; IPv6 is deliberately left untouched. -/
def resetFallbackPass (runner : Runner) :
    List String → (Except String (List LogEntry)) × List Cmd
  | [] => (Except.ok [], [])
  | adapter :: rest =>
    match runner (Cmd.netshSetDhcp adapter) with
    | ExecOutcome.raise msg => (Except.error msg, [Cmd.netshSetDhcp adapter])
    | ExecOutcome.ok p1 =>
      let here := if p1.exitCode ≠ 0 then LogEntry.netshResetDhcpFail adapter p1.stderr
                  else LogEntry.netshResetDhcpOk adapter
      let res := resetFallbackPass runner rest
      (res.1.map (fun ls => here :: ls), Cmd.netshSetDhcp adapter :: res.2)

/-- `reset_dns` (lines 165-194): PowerShell reset per adapter, then the netsh
DHCP fallback over all adapters iff `not all_ok`; `all_ok` never flips back. -/
def reset_dns (runner : Runner) (adapters : List String) :
    (Except String (Bool × List LogEntry)) × List Cmd :=
  let pr := resetPrimaryPass runner adapters true []
  match pr.1 with
  | Except.error msg => (Except.error msg, pr.2)
  | Except.ok res =>
    if res.1 then (Except.ok res, pr.2)
    else
      let fb := resetFallbackPass runner adapters
      match fb.1 with
      | Except.error msg => (Except.error msg, pr.2 ++ fb.2)
      | Except.ok flog =>
        (Except.ok (res.1, res.2 ++ [LogEntry.netshResetBanner] ++ flog), pr.2 ++ fb.2)

/-- Did the command run and exit with code 0 under this runner? -/
def cmdSucceeds (runner : Runner) (c : Cmd) : Bool :=
  match runner c with
  | ExecOutcome.ok r => r.exitCode == 0
  | ExecOutcome.raise _ => false

/-- The diagnostic text an outcome contributes to the log. -/
def stderrOf : ExecOutcome → String
  | ExecOutcome.ok r => r.stderr
  | ExecOutcome.raise msg => msg

/-- Every command this runner is asked to start launches (no exception from
`subprocess.run`). -/
def launches (runner : Runner) : Prop := ∀ c, ∃ r, runner c = ExecOutcome.ok r

/-- Log entries recording a failed PowerShell apply attempt (non-zero exit or
the caught exception). -/
def isPrimaryFailEntry : LogEntry → Bool
  | LogEntry.psApplyFail _ _ => true
  | LogEntry.psException _ => true
  | _ => false

/-- Log entries produced by the netsh fallback of `set_dns_servers`
(banner included). -/
def isFallbackEntry : LogEntry → Bool
  | LogEntry.netshBanner => true
  | LogEntry.netshDhcpFail _ _ => true
  | LogEntry.netshPrimaryFail _ _ => true
  | LogEntry.netshAddFail _ _ _ => true
  | LogEntry.netshApplied _ _ => true
  | _ => false

/-- Fallback log entries that name a given adapter. -/
def isFallbackFor (adapter : String) : LogEntry → Bool
  | LogEntry.netshDhcpFail a _ => a = adapter
  | LogEntry.netshPrimaryFail a _ => a = adapter
  | LogEntry.netshAddFail a _ _ => a = adapter
  | LogEntry.netshApplied a _ => a = adapter
  | _ => false

/-- Primary-failure log entries that name a given adapter. -/
def isPrimaryFailFor (adapter : String) : LogEntry → Bool
  | LogEntry.psApplyFail a _ => a = adapter
  | _ => false

/-- Commands of the PowerShell apply mechanism. -/
def isPrimaryCmd : Cmd → Bool
  | Cmd.psSetDns _ _ => true
  | _ => false

/-- The add-server commands the fallback issues for the remaining IPv4
addresses, indices counting up from the starting index. -/
def addCmds (adapter : String) : List String → Nat → List Cmd
  | [], _ => []
  | ip :: rest, idx => Cmd.netshAddServer adapter ip idx :: addCmds adapter rest (idx + 1)

/-- The failure log lines the add-server loop produces: one entry per failed
addition, successes unlogged. -/
def addFailLogs (runner : Runner) (adapter : String) : List String → Nat → List LogEntry
  | [], _ => []
  | ip :: rest, idx =>
    (if cmdSucceeds runner (Cmd.netshAddServer adapter ip idx) then []
     else [LogEntry.netshAddFail adapter idx
       (stderrOf (runner (Cmd.netshAddServer adapter ip idx)))]) ++
    addFailLogs runner adapter rest (idx + 1)

/-- The log contribution of the set-source-to-DHCP step: a failure line when
it exits non-zero, nothing otherwise. -/
def dhcpFailLog (runner : Runner) (adapter : String) : List LogEntry :=
  if cmdSucceeds runner (Cmd.netshSetDhcp adapter) then []
  else [LogEntry.netshDhcpFail adapter (stderrOf (runner (Cmd.netshSetDhcp adapter)))]

/-- The fallback-table row rule as the spec states it, with field splitting on
runs of spaces: skip blank lines and header/separator lines, split into
fields, require at least 4 fields, read the third-from-last field as the
connection state and the fields from the 4th onward joined with single spaces
as the name, and keep the row iff the state equals "connected"
case-insensitively. -/
def specRowName (line : String) : Option String :=
  if pyStrip line ≠ "" ∧ pyStartswith line "Admin State" = false ∧
      pyStartswith line "---" = false then
    let parts := (pySplitChar (fun c => c = ' ') line).filter (fun x => x ≠ "")
    if parts.length ≥ 4 then
      if pyLower (parts.getD (parts.length - 3) "") = "connected" then
        some (String.intercalate " " (parts.drop 3))
      else none
    else none
  else none

/-- The same row rule with the claim's literal field splitting on whitespace
(spaces and tabs alike). -/
def specRowNameWs (line : String) : Option String :=
  if pyStrip line ≠ "" ∧ pyStartswith line "Admin State" = false ∧
      pyStartswith line "---" = false then
    let parts := (pySplitChar isPySpace line).filter (fun x => x ≠ "")
    if parts.length ≥ 4 then
      if pyLower (parts.getD (parts.length - 3) "") = "connected" then
        some (String.intercalate " " (parts.drop 3))
      else none
    else none
  else none

/-- A runner on which every command completes with exit code 0. -/
def runner0 : Runner := fun _ => ExecOutcome.ok ⟨0, "", ""⟩

/-- A runner on which every PowerShell apply command exits 1 and every other
command exits 0: the primary mechanism fails, the netsh fallback succeeds. -/
def runnerC1 : Runner := fun c =>
  ExecOutcome.ok (match c with
    | Cmd.psSetDns _ _ => ⟨1, "", "err"⟩
    | _ => ⟨0, "", ""⟩)

/-- A runner on which no command can be launched at all. -/
def raisingRunner : Runner := fun _ => ExecOutcome.raise "powershell missing"

/-- A runner whose PowerShell apply command fails to launch for adapter `A`
only; every other command completes with exit code 0. -/
def raiseOnA : Runner := fun c =>
  match c with
  | Cmd.psSetDns a _ =>
    if a = "A" then ExecOutcome.raise "powershell missing"
    else ExecOutcome.ok ⟨0, "", ""⟩
  | _ => ExecOutcome.ok ⟨0, "", ""⟩

/-- A runner on which the set-source-to-DHCP step and the first add-server
step (index 2) exit 1, everything else exits 0. -/
def runnerC7 : Runner := fun c =>
  ExecOutcome.ok (match c with
    | Cmd.netshSetDhcp _ => ⟨1, "", "e1"⟩
    | Cmd.netshAddServer _ _ idx => if idx = 2 then ⟨1, "", "e2"⟩ else ⟨0, "", ""⟩
    | _ => ⟨0, "", ""⟩)

/-- The fallback adapter table of the concrete discovery scenario: a header
line, a separator line and one connected row. -/
def netshTable : String :=
  "Admin State    State          Type             Interface Name\n---------------------------------------------------------------\nEnabled        Connected      Dedicated        Wi-Fi"

/-- A runner realising the concrete discovery scenario: the PowerShell
enumeration exits 1, the netsh listing exits 0 and prints `netshTable`. -/
def runnerC8 : Runner := fun c =>
  ExecOutcome.ok (match c with
    | Cmd.psListAdapters => ⟨1, "", ""⟩
    | Cmd.netshShowInterfaces => ⟨0, netshTable, ""⟩
    | _ => ⟨0, "", ""⟩)

/-- Like `runnerC8`, but the netsh listing prints a single connected row whose
third field is separated from the name by a tab instead of a space. -/
def runnerC8tab : Runner := fun c =>
  ExecOutcome.ok (match c with
    | Cmd.psListAdapters => ⟨1, "", ""⟩
    | Cmd.netshShowInterfaces => ⟨0, "Enabled Connected Dedicated\tWi-Fi", ""⟩
    | _ => ⟨0, "", ""⟩)

/-- A runner on which the PowerShell apply exits 1 for adapter `A` and 0 for
every other adapter; all netsh commands exit 0. -/
def runnerC9 : Runner := fun c =>
  ExecOutcome.ok (match c with
    | Cmd.psSetDns a _ => if a = "A" then ⟨1, "", "boom"⟩ else ⟨0, "", ""⟩
    | _ => ⟨0, "", ""⟩)

/-! ## General lemmas about the embedded passes -/

theorem addLoop_run (runner : Runner) (hl : launches runner) (adapter : String)
    (ips : List String) (idx : Nat) :
    addLoop runner adapter ips idx =
      (Except.ok (addFailLogs runner adapter ips idx), addCmds adapter ips idx) := by
  induction ips generalizing idx with
  | nil => rfl
  | cons ip rest ih =>
    obtain ⟨r, hr⟩ := hl (Cmd.netshAddServer adapter ip idx)
    by_cases h : r.exitCode = 0 <;>
      simp [addLoop, addCmds, addFailLogs, hr, cmdSucceeds, stderrOf, h, ih, Except.map]

theorem fallbackAdapter_run (runner : Runner) (hl : launches runner)
    (first : String) (rest : List String) (adapter : String) :
    fallbackAdapter runner first rest adapter =
      (Except.ok (dhcpFailLog runner adapter ++
         (if cmdSucceeds runner (Cmd.netshSetPrimary adapter first)
           then addFailLogs runner adapter rest 2 ++
             [LogEntry.netshApplied adapter (first :: rest)]
           else [LogEntry.netshPrimaryFail adapter
             (stderrOf (runner (Cmd.netshSetPrimary adapter first)))])),
       Cmd.netshSetDhcp adapter :: Cmd.netshSetPrimary adapter first ::
         (if cmdSucceeds runner (Cmd.netshSetPrimary adapter first)
           then addCmds adapter rest 2 else [])) := by
  obtain ⟨r1, h1⟩ := hl (Cmd.netshSetDhcp adapter)
  obtain ⟨r2, h2⟩ := hl (Cmd.netshSetPrimary adapter first)
  by_cases e1 : r1.exitCode = 0 <;> by_cases e2 : r2.exitCode = 0 <;>
    simp [fallbackAdapter, dhcpFailLog, h1, h2, e1, e2, cmdSucceeds, stderrOf,
      addLoop_run runner hl, Except.map]

theorem fallbackPass_run (runner : Runner) (hl : launches runner)
    (first : String) (rest : List String) (as : List String) :
    ∃ l, fallbackPass runner first rest as =
      (Except.ok l, as.flatMap (fun a => (fallbackAdapter runner first rest a).2)) := by
  induction as with
  | nil => exact ⟨[], rfl⟩
  | cons a more ih =>
    obtain ⟨l2, h2⟩ := ih
    refine ⟨(dhcpFailLog runner a ++
      (if cmdSucceeds runner (Cmd.netshSetPrimary a first)
        then addFailLogs runner a rest 2 ++ [LogEntry.netshApplied a (first :: rest)]
        else [LogEntry.netshPrimaryFail a
          (stderrOf (runner (Cmd.netshSetPrimary a first)))])) ++ l2, ?_⟩
    simp [fallbackPass, fallbackAdapter_run runner hl first rest a, h2, Except.map,
      List.append_assoc]

theorem primaryPass_skip (runner : Runner) (v4 v6 : List String)
    (hb : (v4.isEmpty && v6.isEmpty) = true) (as : List String) (ok0 : Bool)
    (logs : List LogEntry) :
    primaryPass runner v4 v6 as ok0 logs = ((ok0, logs), []) := by
  induction as with
  | nil => rfl
  | cons a rest ih => simp [primaryPass, hb, ih]

theorem primaryPass_allOk (runner : Runner) (v4 v6 : List String)
    (hnb : (v4.isEmpty && v6.isEmpty) = false) (as : List String) (ok0 : Bool)
    (logs : List LogEntry) :
    (primaryPass runner v4 v6 as ok0 logs).1.1 =
      (ok0 && as.all (fun a => cmdSucceeds runner (Cmd.psSetDns a (v4 ++ v6)))) := by
  induction as generalizing ok0 logs with
  | nil => simp [primaryPass]
  | cons a rest ih =>
    cases hr : runner (Cmd.psSetDns a (v4 ++ v6)) with
    | raise msg => simp [primaryPass, hnb, hr, cmdSucceeds]
    | ok p =>
      by_cases h : p.exitCode = 0 <;>
        simp [primaryPass, hnb, hr, cmdSucceeds, h, ih]

theorem primaryPass_log (runner : Runner) (v4 v6 : List String) (as : List String)
    (ok0 : Bool) (logs : List LogEntry) :
    ∃ d, (primaryPass runner v4 v6 as ok0 logs).1.2 = logs ++ d ∧
      d.all (fun e => !(isFallbackEntry e)) = true ∧
      (primaryPass runner v4 v6 as ok0 logs).1.1 = (ok0 && !(d.any isPrimaryFailEntry)) := by
  induction as generalizing ok0 logs with
  | nil => exact ⟨[], by simp [primaryPass]⟩
  | cons a rest ih =>
    by_cases hb : (v4.isEmpty && v6.isEmpty) = true
    · obtain ⟨d, h1, h2, h3⟩ := ih ok0 logs
      refine ⟨d, ?_, ?_, ?_⟩
      · simp [primaryPass, hb, h1]
      · exact h2
      · simp [primaryPass, hb, h3]
    · rw [Bool.not_eq_true] at hb
      cases hr : runner (Cmd.psSetDns a (v4 ++ v6)) with
      | raise msg =>
        refine ⟨[LogEntry.psException msg], ?_, ?_, ?_⟩ <;>
          simp [primaryPass, hb, hr, isFallbackEntry, isPrimaryFailEntry]
      | ok p =>
        by_cases h : p.exitCode = 0
        · obtain ⟨d, h1, h2, h3⟩ := ih ok0 (logs ++ [LogEntry.psApplyOk a (v4 ++ v6)])
          refine ⟨LogEntry.psApplyOk a (v4 ++ v6) :: d, ?_, ?_, ?_⟩
          · simp [primaryPass, hb, hr, h, h1]
          · simpa [isFallbackEntry] using h2
          · simp [primaryPass, hb, hr, h, h3, isPrimaryFailEntry]
        · obtain ⟨d, h1, h2, h3⟩ := ih false (logs ++ [LogEntry.psApplyFail a p.stderr])
          refine ⟨LogEntry.psApplyFail a p.stderr :: d, ?_, ?_, ?_⟩
          · simp [primaryPass, hb, hr, h, h1]
          · simpa [isFallbackEntry] using h2
          · simp [primaryPass, hb, hr, h, h3, isPrimaryFailEntry]

theorem primaryPass_cmds (runner : Runner) (v4 v6 : List String) (as : List String)
    (ok0 : Bool) (logs : List LogEntry) :
    (primaryPass runner v4 v6 as ok0 logs).2.all isPrimaryCmd = true := by
  induction as generalizing ok0 logs with
  | nil => rfl
  | cons a rest ih =>
    by_cases hb : (v4.isEmpty && v6.isEmpty) = true
    · simp [primaryPass, hb, ih]
    · rw [Bool.not_eq_true] at hb
      cases hr : runner (Cmd.psSetDns a (v4 ++ v6)) with
      | raise msg => simp [primaryPass, hb, hr, isPrimaryCmd]
      | ok p =>
        by_cases h : p.exitCode = 0 <;>
          simp [primaryPass, hb, hr, h, ih, isPrimaryCmd]

theorem addLoop_ok_kind (runner : Runner) (adapter : String) (ips : List String)
    (idx : Nat) (la : List LogEntry)
    (h : (addLoop runner adapter ips idx).1 = Except.ok la) :
    la.all isFallbackEntry = true := by
  induction ips generalizing idx la with
  | nil =>
    simp only [addLoop] at h
    cases h
    rfl
  | cons ip rest ih =>
    cases hr : runner (Cmd.netshAddServer adapter ip idx) with
    | raise msg => simp [addLoop, hr] at h
    | ok p =>
      simp only [addLoop, hr] at h
      cases hrec : (addLoop runner adapter rest (idx + 1)).1 with
      | error msg => rw [hrec] at h; simp [Except.map] at h
      | ok lrec =>
        rw [hrec] at h
        simp only [Except.map, Except.ok.injEq] at h
        subst h
        have htail := ih (idx + 1) lrec hrec
        by_cases hz : p.exitCode = 0 <;>
          simp_all [isFallbackEntry, List.all_append]

theorem fallbackAdapter_ok_kind (runner : Runner) (first : String)
    (rest : List String) (adapter : String) (l : List LogEntry)
    (h : (fallbackAdapter runner first rest adapter).1 = Except.ok l) :
    l.all isFallbackEntry = true := by
  cases h1 : runner (Cmd.netshSetDhcp adapter) with
  | raise msg => simp [fallbackAdapter, h1] at h
  | ok p1 =>
    cases h2 : runner (Cmd.netshSetPrimary adapter first) with
    | raise msg => simp [fallbackAdapter, h1, h2] at h
    | ok p2 =>
      simp only [fallbackAdapter, h1, h2] at h
      by_cases hz2 : p2.exitCode = 0
      · rw [if_neg (by simp [hz2])] at h
        cases hrec : (addLoop runner adapter rest 2).1 with
        | error msg => rw [hrec] at h; simp [Except.map] at h
        | ok lrec =>
          rw [hrec] at h
          simp only [Except.map, Except.ok.injEq] at h
          subst h
          have htail := addLoop_ok_kind runner adapter rest 2 lrec hrec
          by_cases hz1 : p1.exitCode = 0 <;>
            simp_all [isFallbackEntry, List.all_append]
      · rw [if_pos (by simp [hz2])] at h
        simp only [Except.ok.injEq] at h
        subst h
        by_cases hz1 : p1.exitCode = 0 <;>
          simp_all [isFallbackEntry, List.all_append]

theorem fallbackPass_ok_kind (runner : Runner) (first : String) (rest : List String)
    (as : List String) (l : List LogEntry)
    (h : (fallbackPass runner first rest as).1 = Except.ok l) :
    l.all isFallbackEntry = true := by
  induction as generalizing l with
  | nil =>
    simp only [fallbackPass] at h
    cases h
    rfl
  | cons a more ih =>
    simp only [fallbackPass] at h
    cases h1 : (fallbackAdapter runner first rest a).1 with
    | error msg => rw [h1] at h; simp at h
    | ok l1 =>
      rw [h1] at h
      cases h2 : (fallbackPass runner first rest more).1 with
      | error msg => rw [h2] at h; simp [Except.map] at h
      | ok l2 =>
        simp only [h2, Except.map, Except.ok.injEq] at h
        subst h
        have k1 := fallbackAdapter_ok_kind runner first rest a l1 h1
        have k2 := ih l2 h2
        simp_all [List.all_append]

theorem resetPrimaryPass_flag (runner : Runner) (as : List String) (ok0 : Bool)
    (logs : List LogEntry) (b : Bool) (l : List LogEntry)
    (h : (resetPrimaryPass runner as ok0 logs).1 = Except.ok (b, l)) :
    b = (ok0 && as.all (fun a => cmdSucceeds runner (Cmd.psResetDns a))) := by
  induction as generalizing ok0 logs with
  | nil =>
    simp only [resetPrimaryPass, Except.ok.injEq, Prod.mk.injEq] at h
    simp [h.1]
  | cons a rest ih =>
    cases hr : runner (Cmd.psResetDns a) with
    | raise msg => simp [resetPrimaryPass, hr] at h
    | ok p =>
      simp only [resetPrimaryPass, hr] at h
      by_cases hz : p.exitCode = 0
      · rw [if_neg (by simp [hz])] at h
        have := ih ok0 (logs ++ [LogEntry.psResetOk a]) h
        simp [this, cmdSucceeds, hr, hz]
      · rw [if_pos (by simp [hz])] at h
        have := ih false (logs ++ [LogEntry.psResetFail a p.stderr]) h
        simp [this, cmdSucceeds, hr, hz]

theorem resetPrimaryPass_run (runner : Runner) (hl : launches runner)
    (as : List String) (ok0 : Bool) (logs : List LogEntry) :
    ∃ b l, (resetPrimaryPass runner as ok0 logs).1 = Except.ok (b, l) := by
  induction as generalizing ok0 logs with
  | nil => exact ⟨ok0, logs, rfl⟩
  | cons a rest ih =>
    obtain ⟨r, hr⟩ := hl (Cmd.psResetDns a)
    by_cases hz : r.exitCode = 0
    · obtain ⟨b, l, hb⟩ := ih ok0 (logs ++ [LogEntry.psResetOk a])
      exact ⟨b, l, by simp [resetPrimaryPass, hr, hz, hb]⟩
    · obtain ⟨b, l, hb⟩ := ih false (logs ++ [LogEntry.psResetFail a r.stderr])
      exact ⟨b, l, by simp [resetPrimaryPass, hr, hz, hb]⟩

theorem resetFallbackPass_run (runner : Runner) (hl : launches runner)
    (as : List String) :
    ∃ l, (resetFallbackPass runner as).1 = Except.ok l := by
  induction as with
  | nil => exact ⟨[], rfl⟩
  | cons a rest ih =>
    obtain ⟨r, hr⟩ := hl (Cmd.netshSetDhcp a)
    obtain ⟨l, hlf⟩ := ih
    by_cases hz : r.exitCode = 0
    · exact ⟨LogEntry.netshResetDhcpOk a :: l,
        by simp [resetFallbackPass, hr, hz, hlf, Except.map]⟩
    · exact ⟨LogEntry.netshResetDhcpFail a r.stderr :: l,
        by simp [resetFallbackPass, hr, hz, hlf, Except.map]⟩

theorem parseNetshLine_eq (names : List String) (line : String) :
    parseNetshLine names line = names ++ (specRowName line).toList := by
  simp only [parseNetshLine, specRowName]
  split
  · split
    · split <;> simp
    · simp
  · simp

theorem foldl_parseNetshLine (ls : List String) (acc : List String) :
    ls.foldl parseNetshLine acc = acc ++ ls.filterMap specRowName := by
  induction ls generalizing acc with
  | nil => simp
  | cons l rest ih =>
    rw [List.foldl_cons, ih, parseNetshLine_eq]
    cases h : specRowName l <;> simp [h, List.filterMap_cons]

/-! ## Claims -/

/-- Claim C1, counterexample: in the concrete scenario — one adapter
`Ethernet`, profile `1.1.1.1`/`1.0.0.1` plus one IPv6 server, primary
mechanism failing, every fallback command succeeding — `set_dns_servers`
returns `overall_success = false`, not `true` as claimed: the fallback's
success never updates `all_ok`. -/
theorem apply_scenario_fallback_does_not_flip :
    (set_dns_servers runnerC1 ["Ethernet"] (some ["1.1.1.1", "1.0.0.1"])
        (some ["2606:4700:4700::1111"])).1 =
      Except.ok (false,
        [LogEntry.psApplyFail "Ethernet" "err", LogEntry.netshBanner,
         LogEntry.netshApplied "Ethernet" ["1.1.1.1", "1.0.0.1"]]) := rfl

/-- Claim C1, amended: the `overall_success` returned by `set_dns_servers` is
exactly the PowerShell pass's `all_ok` flag; the IPv4 fallback never changes
it, so it is false whenever any primary attempt failed, even if the fallback's
primary-address step succeeded for every adapter. -/
theorem apply_overall_success_eq_primary_flag (runner : Runner)
    (adapters : List String) (servers_v4 servers_v6 : Option (List String))
    (b : Bool) (log : List LogEntry)
    (h : (set_dns_servers runner adapters servers_v4 servers_v6).1 = Except.ok (b, log)) :
    b = (primaryPass runner (servers_v4.getD []) (servers_v6.getD [])
          adapters true []).1.1 := by
  simp only [set_dns_servers] at h
  split at h
  · rw [Except.ok.injEq] at h
    exact (congrArg Prod.fst h).symm
  · split at h
    · rw [Except.ok.injEq] at h
      exact (congrArg Prod.fst h).symm
    · split at h
      · simp at h
      · rw [Except.ok.injEq, Prod.mk.injEq] at h
        exact h.1.symm

/-- Claim C1, witness for the amended theorem at the concrete scenario. -/
theorem apply_overall_success_eq_primary_flag_witness :
    false = (primaryPass runnerC1 ["1.1.1.1", "1.0.0.1"] ["2606:4700:4700::1111"]
      ["Ethernet"] true []).1.1 :=
  apply_overall_success_eq_primary_flag runnerC1 ["Ethernet"]
    (some ["1.1.1.1", "1.0.0.1"]) (some ["2606:4700:4700::1111"]) false
    [LogEntry.psApplyFail "Ethernet" "err", LogEntry.netshBanner,
     LogEntry.netshApplied "Ethernet" ["1.1.1.1", "1.0.0.1"]] rfl

/-- Claim C3, counterexample: with an empty adapter list, both operations
return success with an empty log and issue no command at all — the empty set
is silently accepted as a successful no-op, there is no explicit rejection. -/
theorem empty_adapters_not_rejected :
    set_dns_servers runner0 [] (some ["1.1.1.1"]) none = (Except.ok (true, []), []) ∧
    reset_dns runner0 [] = (Except.ok (true, []), []) := ⟨rfl, rfl⟩

/-- Claim C3, amended: for every behaviour of the command mechanism, an empty
adapter set makes `set_dns_servers` and `reset_dns` return
`overall_success = true` with an empty log and an empty command trace — a
silent successful no-op instead of an explicit pre-command rejection. -/
theorem empty_adapters_silent_noop (runner : Runner)
    (servers_v4 servers_v6 : Option (List String)) :
    set_dns_servers runner [] servers_v4 servers_v6 = (Except.ok (true, []), []) ∧
    reset_dns runner [] = (Except.ok (true, []), []) := ⟨rfl, rfl⟩

/-- Claim C4, counterexample: a launch failure on adapter `A`'s primary
command ends the loop — adapter `B` is never attempted (the trace holds only
`A`'s command), although the failure is surfaced in the log. -/
theorem launch_failure_aborts_remaining_adapters :
    set_dns_servers raiseOnA ["A", "B"] none (some ["fe80::1"]) =
      (Except.ok (false, [LogEntry.psException "powershell missing"]),
       [Cmd.psSetDns "A" ["fe80::1"]]) := rfl

/-- Claim C4, amended: a launch failure in the PowerShell pass of
`set_dns_servers` is captured in the log and fails the operation, but it
aborts the per-adapter loop: the pass issues no command for the remaining
adapters. -/
theorem primary_launch_failure_stops_loop (runner : Runner) (v4 v6 : List String)
    (a : String) (rest : List String) (msg : String) (allOk : Bool)
    (logs : List LogEntry)
    (hne : (v4.isEmpty && v6.isEmpty) = false)
    (h : runner (Cmd.psSetDns a (v4 ++ v6)) = ExecOutcome.raise msg) :
    primaryPass runner v4 v6 (a :: rest) allOk logs =
      ((false, logs ++ [LogEntry.psException msg]), [Cmd.psSetDns a (v4 ++ v6)]) := by
  simp [primaryPass, hne, h]

/-- Claim C4, witness: the amended theorem at the counterexample input. -/
theorem primary_launch_failure_stops_loop_witness :
    primaryPass raiseOnA [] ["fe80::1"] ["A", "B"] true [] =
      ((false, [] ++ [LogEntry.psException "powershell missing"]),
       [Cmd.psSetDns "A" ([] ++ ["fe80::1"])]) :=
  primary_launch_failure_stops_loop raiseOnA [] ["fe80::1"] "A" ["B"]
    "powershell missing" true [] rfl rfl

/-- Claim C5: when `reset_dns` returns an outcome, its `overall_success` is
true iff the PowerShell reset exited 0 for every adapter of the request; the
netsh fallback pass never changes it back to true. -/
theorem reset_success_iff_all_primary_ok (runner : Runner) (adapters : List String)
    (b : Bool) (log : List LogEntry)
    (h : (reset_dns runner adapters).1 = Except.ok (b, log)) :
    b = adapters.all (fun a => cmdSucceeds runner (Cmd.psResetDns a)) := by
  simp only [reset_dns] at h
  cases hpr : (resetPrimaryPass runner adapters true []).1 with
  | error msg => rw [hpr] at h; simp at h
  | ok res =>
    have hflag := resetPrimaryPass_flag runner adapters true [] res.1 res.2
      (by rw [hpr])
    rw [Bool.true_and] at hflag
    rw [hpr] at h
    simp only [] at h
    split at h
    · rw [Except.ok.injEq] at h
      rw [← hflag]
      exact (congrArg Prod.fst h).symm
    · split at h
      · simp at h
      · rw [Except.ok.injEq, Prod.mk.injEq] at h
        rw [← hflag]
        exact h.1.symm

/-- Claim C5, witness: one adapter, every command succeeding. -/
theorem reset_success_iff_all_primary_ok_witness :
    true = ["Ethernet"].all (fun a => cmdSucceeds runner0 (Cmd.psResetDns a)) :=
  reset_success_iff_all_primary_ok runner0 ["Ethernet"] true
    [LogEntry.psResetOk "Ethernet"] rfl

/-- Claim C10: `None` in place of either server list behaves exactly as the
empty list, for the success boolean, the log, and the issued commands. -/
theorem apply_none_eq_empty_lists (runner : Runner) (adapters : List String)
    (v4 v6 : List String) :
    set_dns_servers runner adapters none (some v6) =
      set_dns_servers runner adapters (some []) (some v6) ∧
    set_dns_servers runner adapters (some v4) none =
      set_dns_servers runner adapters (some v4) (some []) ∧
    set_dns_servers runner adapters none none =
      set_dns_servers runner adapters (some []) (some []) := ⟨rfl, rfl, rfl⟩

/-- Claim C2, counterexample: when the PowerShell executable cannot be
launched, `reset_dns` lets the exception propagate to the caller instead of
capturing it in the log (its loop has no `try`). -/
theorem reset_launch_failure_propagates :
    (reset_dns raisingRunner ["Ethernet"]).1 = Except.error "powershell missing" := rfl

/-- Claim C2, amended: as long as every external command launches (exceptions
can only arise at launch), no error propagates out of `set_dns_servers` or
`reset_dns`: both always return an outcome. -/
theorem apply_reset_total_when_commands_launch (runner : Runner)
    (hl : launches runner) (adapters : List String)
    (servers_v4 servers_v6 : Option (List String)) :
    (∃ out, (set_dns_servers runner adapters servers_v4 servers_v6).1 = Except.ok out) ∧
    (∃ out, (reset_dns runner adapters).1 = Except.ok out) := by
  constructor
  · simp only [set_dns_servers]
    split
    · exact ⟨_, rfl⟩
    · cases hv : servers_v4.getD [] with
      | nil => exact ⟨_, rfl⟩
      | cons first rest =>
        obtain ⟨l, hfb⟩ := fallbackPass_run runner hl first rest adapters
        simp only [hfb]
        exact ⟨_, rfl⟩
  · obtain ⟨b, l, hpr⟩ := resetPrimaryPass_run runner hl adapters true []
    simp only [reset_dns, hpr]
    split
    · exact ⟨_, rfl⟩
    · obtain ⟨lf, hf⟩ := resetFallbackPass_run runner hl adapters
      rw [hf]
      exact ⟨_, rfl⟩

/-- Claim C2, witness: the amended theorem at a runner on which every command
completes. -/
theorem apply_reset_total_when_commands_launch_witness :
    (∃ out, (set_dns_servers runner0 ["Ethernet"] (some ["1.1.1.1"]) none).1 =
      Except.ok out) ∧
    (∃ out, (reset_dns runner0 ["Ethernet"]).1 = Except.ok out) :=
  apply_reset_total_when_commands_launch runner0 (fun _ => ⟨_, rfl⟩) ["Ethernet"]
    (some ["1.1.1.1"]) none

/-- Claim C7: per adapter, the fallback issues exactly the
set-source-to-DHCP command, then the set-static-primary command with the
first IPv4 address, then — only if the primary-setting command exited 0 — one
add-server command per remaining address at indices 2, 3, …; the log records
the DHCP step's failure without stopping, records a primary-step failure and
skips the additions, and records each failed addition individually while the
remaining additions still run. -/
theorem fallback_adapter_command_structure (runner : Runner) (hl : launches runner)
    (first adapter : String) (rest : List String) :
    (fallbackAdapter runner first rest adapter).2 =
      Cmd.netshSetDhcp adapter :: Cmd.netshSetPrimary adapter first ::
        (if cmdSucceeds runner (Cmd.netshSetPrimary adapter first)
          then addCmds adapter rest 2 else []) ∧
    (fallbackAdapter runner first rest adapter).1 =
      Except.ok (dhcpFailLog runner adapter ++
        (if cmdSucceeds runner (Cmd.netshSetPrimary adapter first)
          then addFailLogs runner adapter rest 2 ++
            [LogEntry.netshApplied adapter (first :: rest)]
          else [LogEntry.netshPrimaryFail adapter
            (stderrOf (runner (Cmd.netshSetPrimary adapter first)))])) := by
  rw [fallbackAdapter_run runner hl first rest adapter]
  exact ⟨rfl, rfl⟩

/-- Claim C7, witness: a runner on which the DHCP step fails, the primary
step succeeds and the first addition (index 2) fails. -/
theorem fallback_adapter_command_structure_witness :
    (fallbackAdapter runnerC7 "1.1.1.1" ["1.0.0.1", "9.9.9.9"] "A").2 =
      Cmd.netshSetDhcp "A" :: Cmd.netshSetPrimary "A" "1.1.1.1" ::
        (if cmdSucceeds runnerC7 (Cmd.netshSetPrimary "A" "1.1.1.1")
          then addCmds "A" ["1.0.0.1", "9.9.9.9"] 2 else []) ∧
    (fallbackAdapter runnerC7 "1.1.1.1" ["1.0.0.1", "9.9.9.9"] "A").1 =
      Except.ok (dhcpFailLog runnerC7 "A" ++
        (if cmdSucceeds runnerC7 (Cmd.netshSetPrimary "A" "1.1.1.1")
          then addFailLogs runnerC7 "A" ["1.0.0.1", "9.9.9.9"] 2 ++
            [LogEntry.netshApplied "A" ["1.1.1.1", "1.0.0.1", "9.9.9.9"]]
          else [LogEntry.netshPrimaryFail "A"
            (stderrOf (runnerC7 (Cmd.netshSetPrimary "A" "1.1.1.1")))])) :=
  fallback_adapter_command_structure runnerC7 (fun _ => ⟨_, rfl⟩) "1.1.1.1" "A"
    ["1.0.0.1", "9.9.9.9"]

/-- Claim C6: if at least one adapter's primary attempt failed and the IPv4
list is non-empty, the netsh fallback pass covers every adapter of the
request, in input order (the command trace is the primary pass's commands
followed by one non-empty fallback block per adapter, each starting with that
adapter's DHCP command); conversely, if every primary attempt succeeded or
the IPv4 list is empty, the trace is the primary pass's commands alone, which
contain no fallback command. -/
theorem apply_fallback_trigger_and_coverage (runner : Runner) (hl : launches runner)
    (adapters : List String) (first : String) (rest v4 v6 : List String) :
    (adapters.all
        (fun a => cmdSucceeds runner (Cmd.psSetDns a ((first :: rest) ++ v6))) = false →
      (set_dns_servers runner adapters (some (first :: rest)) (some v6)).2 =
        (primaryPass runner (first :: rest) v6 adapters true []).2 ++
          adapters.flatMap (fun a => (fallbackAdapter runner first rest a).2) ∧
      ∀ a ∈ adapters,
        ((fallbackAdapter runner first rest a).2).head? = some (Cmd.netshSetDhcp a)) ∧
    (adapters.all (fun a => cmdSucceeds runner (Cmd.psSetDns a (v4 ++ v6))) = true →
      (set_dns_servers runner adapters (some v4) (some v6)).2 =
        (primaryPass runner v4 v6 adapters true []).2) ∧
    (set_dns_servers runner adapters (some []) (some v6)).2 =
      (primaryPass runner [] v6 adapters true []).2 ∧
    (primaryPass runner v4 v6 adapters true []).2.all isPrimaryCmd = true := by
  refine ⟨?_, ?_, ?_, ?_⟩
  · intro hfail
    have hnb : ((first :: rest).isEmpty && v6.isEmpty) = false := by simp
    have hflag := primaryPass_allOk runner (first :: rest) v6 hnb adapters true []
    rw [hfail, Bool.and_false] at hflag
    obtain ⟨l, hfb⟩ := fallbackPass_run runner hl first rest adapters
    constructor
    · simp only [set_dns_servers, Option.getD_some]
      rw [if_neg (by simp [hflag])]
      simp only [hfb]
    · intro a _
      rw [fallbackAdapter_run runner hl first rest a]
      rfl
  · intro hall
    by_cases hb : (v4.isEmpty && v6.isEmpty) = true
    · simp [set_dns_servers, Option.getD_some,
        primaryPass_skip runner v4 v6 hb adapters true []]
    · rw [Bool.not_eq_true] at hb
      have hflag := primaryPass_allOk runner v4 v6 hb adapters true []
      rw [hall, Bool.and_true] at hflag
      simp only [set_dns_servers, Option.getD_some]
      rw [if_pos hflag]
  · by_cases hflag : (primaryPass runner [] v6 adapters true []).1.1 = true
    · simp only [set_dns_servers, Option.getD_some]
      rw [if_pos hflag]
    · simp only [set_dns_servers, Option.getD_some]
      rw [if_neg hflag]
  · exact primaryPass_cmds runner v4 v6 adapters true []

/-- Claim C6, witness: primary fails on every apply command; the fallback
trace covers adapters `A` and `B` in order. -/
theorem apply_fallback_trigger_and_coverage_witness :
    (set_dns_servers runnerC1 ["A", "B"] (some ["1.1.1.1"]) (some [])).2 =
      (primaryPass runnerC1 ["1.1.1.1"] [] ["A", "B"] true []).2 ++
        ["A", "B"].flatMap (fun a => (fallbackAdapter runnerC1 "1.1.1.1" [] a).2) ∧
    ∀ a ∈ ["A", "B"],
      ((fallbackAdapter runnerC1 "1.1.1.1" [] a).2).head? =
        some (Cmd.netshSetDhcp a) :=
  (apply_fallback_trigger_and_coverage runnerC1 (fun _ => ⟨_, rfl⟩) ["A", "B"]
    "1.1.1.1" [] ["1.1.1.1"] []).1 (by decide)

/-- Claim C8, counterexample: on a fallback row whose state field is
separated from the name by a tab, the code (which splits on the space
character only) excludes the row, while the claim's splitting on whitespace
would have produced `Wi-Fi`; the fallback text is that single row. -/
theorem discovery_tab_divergence :
    get_active_adapters runnerC8tab = Except.ok [] ∧
    specRowNameWs "Enabled Connected Dedicated\tWi-Fi" = some "Wi-Fi" ∧
    pySplitlines "Enabled Connected Dedicated\tWi-Fi" =
      ["Enabled Connected Dedicated\tWi-Fi"] := ⟨rfl, rfl, rfl⟩

/-- Claim C8, amended (field splitting on runs of spaces, not all
whitespace): discovery returns the primary mechanism's names stripped, in
output order, exactly when the primary command exits 0 with at least one
non-blank line; otherwise it returns the fallback table rows accepted by the
row rule `specRowName` when the fallback command exits 0, and nothing when it
exits non-zero. -/
theorem discovery_branches_and_parse (runner : Runner) (p q : CmdResult)
    (hp : runner Cmd.psListAdapters = ExecOutcome.ok p)
    (hq : runner Cmd.netshShowInterfaces = ExecOutcome.ok q) :
    (p.exitCode = 0 ∧ primNames p.stdout ≠ [] →
      get_active_adapters runner = Except.ok (primNames p.stdout)) ∧
    (¬ (p.exitCode = 0 ∧ primNames p.stdout ≠ []) →
      get_active_adapters runner =
        Except.ok (if q.exitCode = 0
          then (pySplitlines q.stdout).filterMap specRowName else [])) := by
  constructor
  · intro hc
    simp only [get_active_adapters, hp]
    rw [if_pos hc]
  · intro hc
    simp only [get_active_adapters, hp, hq]
    rw [if_neg hc]
    by_cases hz : q.exitCode = 0 <;>
      simp [hz, foldl_parseNetshLine]

/-- Claim C8, witness: the concrete scenario — primary exit code 1, fallback
text of one header line, one separator line and the row
`Enabled Connected Dedicated Wi-Fi` — yields `["Wi-Fi"]`. -/
theorem discovery_branches_and_parse_witness :
    get_active_adapters runnerC8 = Except.ok ["Wi-Fi"] := by
  have h := (discovery_branches_and_parse runnerC8 ⟨1, "", ""⟩ ⟨0, netshTable, ""⟩
    rfl rfl).2 (by decide)
  exact h.trans (by rfl)

/-- Claim C9, counterexample: primary fails for `A` and succeeds for `B`, yet
the fallback pass also issues commands for `B` and logs a fallback entry for
`B` although no failed primary entry for `B` exists in the log. -/
theorem fallback_entry_without_own_primary_failure :
    (set_dns_servers runnerC9 ["A", "B"] (some ["1.1.1.1"]) none).1 =
      Except.ok (false,
        [LogEntry.psApplyFail "A" "boom", LogEntry.psApplyOk "B" ["1.1.1.1"],
         LogEntry.netshBanner, LogEntry.netshApplied "A" ["1.1.1.1"],
         LogEntry.netshApplied "B" ["1.1.1.1"]]) ∧
    [LogEntry.psApplyFail "A" "boom", LogEntry.psApplyOk "B" ["1.1.1.1"],
     LogEntry.netshBanner, LogEntry.netshApplied "A" ["1.1.1.1"],
     LogEntry.netshApplied "B" ["1.1.1.1"]].any (isFallbackFor "B") = true ∧
    [LogEntry.psApplyFail "A" "boom", LogEntry.psApplyOk "B" ["1.1.1.1"],
     LogEntry.netshBanner, LogEntry.netshApplied "A" ["1.1.1.1"],
     LogEntry.netshApplied "B" ["1.1.1.1"]].any (isPrimaryFailFor "B") = false :=
  ⟨rfl, rfl, rfl⟩

/-- Claim C9, amended: fallback entries appear in the log only after the
primary pass has recorded at least one failed primary attempt (for some
adapter, not necessarily the same one): whenever the returned log contains a
fallback entry, it splits into the primary pass's entries — free of fallback
entries and containing a primary failure — followed by fallback entries only. -/
theorem fallback_only_after_some_primary_failure (runner : Runner)
    (adapters : List String) (servers_v4 servers_v6 : Option (List String))
    (b : Bool) (log : List LogEntry)
    (hok : (set_dns_servers runner adapters servers_v4 servers_v6).1 =
      Except.ok (b, log))
    (hfb : log.any isFallbackEntry = true) :
    ∃ plog flog, log = plog ++ flog ∧
      plog.all (fun e => !(isFallbackEntry e)) = true ∧
      plog.any isPrimaryFailEntry = true ∧
      flog.all isFallbackEntry = true := by
  simp only [set_dns_servers] at hok
  by_cases hflag : (primaryPass runner (servers_v4.getD []) (servers_v6.getD [])
      adapters true []).1.1 = true
  · rw [if_pos hflag] at hok
    obtain ⟨d, hd1, hd2, hd3⟩ := primaryPass_log runner (servers_v4.getD [])
      (servers_v6.getD []) adapters true []
    have hok2 : (primaryPass runner (servers_v4.getD []) (servers_v6.getD [])
        adapters true []).1 = (b, log) := Except.ok.inj hok
    have hlog : log = d := by
      have h2 := congrArg Prod.snd hok2
      rw [hd1] at h2
      simpa using h2.symm
    exfalso
    rw [hlog, List.any_eq_true] at hfb
    obtain ⟨e, he, hee⟩ := hfb
    have hne := List.all_eq_true.mp hd2 e he
    simp [hee] at hne
  · rw [if_neg hflag] at hok
    cases hv : servers_v4.getD [] with
    | nil =>
      rw [hv] at hok hflag
      obtain ⟨d, hd1, hd2, hd3⟩ := primaryPass_log runner []
        (servers_v6.getD []) adapters true []
      have hok2 : (primaryPass runner [] (servers_v6.getD [])
          adapters true []).1 = (b, log) := Except.ok.inj hok
      have hlog : log = d := by
        have h2 := congrArg Prod.snd hok2
        rw [hd1] at h2
        simpa using h2.symm
      exfalso
      rw [hlog, List.any_eq_true] at hfb
      obtain ⟨e, he, hee⟩ := hfb
      have hne := List.all_eq_true.mp hd2 e he
      simp [hee] at hne
    | cons first rest =>
      rw [hv] at hok hflag
      obtain ⟨d, hd1, hd2, hd3⟩ := primaryPass_log runner (first :: rest)
        (servers_v6.getD []) adapters true []
      cases hfbe : (fallbackPass runner first rest adapters).1 with
      | error msg =>
        simp only [hfbe] at hok
        simp at hok
      | ok flog0 =>
        simp only [hfbe] at hok
        rw [Except.ok.injEq, Prod.mk.injEq] at hok
        obtain ⟨hb1, hlog⟩ := hok
        refine ⟨d, LogEntry.netshBanner :: flog0, ?_, ?_, ?_, ?_⟩
        · rw [← hlog, hd1]
          simp
        · exact hd2
        · rw [Bool.not_eq_true] at hflag
          have hneg : (!(d.any isPrimaryFailEntry)) = false := by
            rw [← Bool.true_and (!(d.any isPrimaryFailEntry)), ← hd3, hflag]
          simpa using hneg
        · have hk := fallbackPass_ok_kind runner first rest adapters flog0 hfbe
          simpa [isFallbackEntry] using hk

/-- Claim C9, witness for the amended theorem at the counterexample
scenario's log. -/
theorem fallback_only_after_some_primary_failure_witness :
    ∃ plog flog,
      [LogEntry.psApplyFail "A" "boom", LogEntry.psApplyOk "B" ["1.1.1.1"],
       LogEntry.netshBanner, LogEntry.netshApplied "A" ["1.1.1.1"],
       LogEntry.netshApplied "B" ["1.1.1.1"]] = plog ++ flog ∧
      plog.all (fun e => !(isFallbackEntry e)) = true ∧
      plog.any isPrimaryFailEntry = true ∧
      flog.all isFallbackEntry = true :=
  fallback_only_after_some_primary_failure runnerC9 ["A", "B"] (some ["1.1.1.1"])
    none false
    [LogEntry.psApplyFail "A" "boom", LogEntry.psApplyOk "B" ["1.1.1.1"],
     LogEntry.netshBanner, LogEntry.netshApplied "A" ["1.1.1.1"],
     LogEntry.netshApplied "B" ["1.1.1.1"]] rfl rfl
